import Mathlib

/-
  Verification of the document-to-answer pipeline of `src/app.py`
  (a Streamlit chat front-end over a PDF semantic index).

  The embedding models the script's own control flow faithfully; every
  external-library call (Groq handle construction, `snapshot_download`,
  `HuggingFaceEmbedding` loading, `SimpleDirectoryReader.load_data`,
  `VectorStoreIndex.from_documents`, query-engine queries) is an oracle
  supplied by an environment record, returning `Except String _` so that
  a Python exception is an `error` value.  Filesystem effects and the
  calls performed are recorded as explicit state and event traces.
-/

namespace InsightEngine

/-- Handle to the hosted language-model backend, as built by
`Groq(model="llama-3.3-70b-versatile", api_key=_api_key)` (line 116). -/
structure GroqHandle where
  model : String
  api_key : String
deriving DecidableEq, Repr

/-- Handle to the locally loaded embedding model, as built by
`HuggingFaceEmbedding(model_name=model_path)` (lines 127/132). -/
structure HFEmbedding where
  model_name : String
deriving DecidableEq, Repr

/-- Observable events performed by `load_models`: a `snapshot_download`
call, a `shutil.rmtree` of the cache directory, and a
`HuggingFaceEmbedding` load attempt. -/
inductive Ev
  | evDownload
  | evRmtree
  | evLoad
deriving DecidableEq, Repr

/-- Outcomes of the external calls made by one invocation of
`load_models`: the `Groq` construction, the i-th `snapshot_download`
call, and the i-th `HuggingFaceEmbedding` load attempt (indices count
calls within the invocation, in order). -/
structure ProvEnv where
  groq : Except String GroqHandle
  download : Nat → Except String Unit
  load : Nat → Except String HFEmbedding

/-- The triple returned by `load_models`: `(llm, embed_model, error)`.
Success returns `(llm, embed_model, None)` (line 134); any caught
exception returns `(None, None, str(e))` (line 136). -/
structure ProvOut where
  llm : Option GroqHandle
  embed : Option HFEmbedding
  error : Option String
deriving DecidableEq, Repr

/-- Inner try/except of `load_models`, lines 126-132: attempt to load the
embedding model from the cache directory; on failure delete the cache
directory if it exists, re-download the snapshot, and retry the load
once.  `cacheExists` is whether the cache directory exists on entry,
`dIdx` the index of the next `snapshot_download` call, `tr` the events
already performed. -/
def load_embed_core (env : ProvEnv) (cacheExists : Bool) (dIdx : Nat)
    (tr : List Ev) : Except String HFEmbedding × Bool × List Ev :=
  match env.load 0 with
  | .ok emb => (.ok emb, cacheExists, tr ++ [Ev.evLoad])
  | .error _ =>
    let st2 : Bool × List Ev :=
      if cacheExists then (false, tr ++ [Ev.evLoad, Ev.evRmtree])
      else (cacheExists, tr ++ [Ev.evLoad])
    match env.download dIdx with
    | .error e => (.error e, st2.1, st2.2 ++ [Ev.evDownload])
    | .ok _ =>
      match env.load 1 with
      | .ok emb => (.ok emb, true, st2.2 ++ [Ev.evDownload, Ev.evLoad])
      | .error e => (.error e, true, st2.2 ++ [Ev.evDownload, Ev.evLoad])

/-- Embedding-model resolution, lines 119-132: if the snapshot directory
is absent, download it first; then load with the self-healing retry of
`load_embed_core`. -/
def load_embed (env : ProvEnv) (cacheExists : Bool) :
    Except String HFEmbedding × Bool × List Ev :=
  if cacheExists then
    load_embed_core env true 0 []
  else
    match env.download 0 with
    | .error e => (.error e, false, [Ev.evDownload])
    | .ok _ => load_embed_core env true 1 [Ev.evDownload]

/-- Body of `load_models` (lines 112-136): construct the Groq handle,
resolve the embedding model, and catch every exception into an error
string.  Returns the output triple, the final cache-directory state and
the trace of events performed. -/
def load_models (env : ProvEnv) (cacheExists : Bool) :
    ProvOut × Bool × List Ev :=
  match env.groq with
  | .error e => (⟨none, none, some e⟩, cacheExists, [])
  | .ok llm =>
    match load_embed env cacheExists with
    | (.ok emb, c, tr) => (⟨some llm, some emb, none⟩, c, tr)
    | (.error e, c, tr) => (⟨none, none, some e⟩, c, tr)

/-- Lookup in the process-wide `st.cache_resource` table, keyed by the
function argument `_api_key`. -/
def cacheLookup (cache : List (String × ProvOut)) (k : String) :
    Option ProvOut :=
  match cache with
  | [] => none
  | e :: rest => if e.1 = k then some e.2 else cacheLookup rest k

/-- Semantics of `@st.cache_resource` applied to `load_models` (line
112): on a cache hit the stored tuple is returned as-is and the body is
not run (no events); on a miss the body runs and its returned tuple,
error results included, is stored under the key. -/
def load_models_cached (env : ProvEnv) (cache : List (String × ProvOut))
    (cacheExists : Bool) (k : String) :
    ProvOut × List (String × ProvOut) × Bool × List Ev :=
  match cacheLookup cache k with
  | some v => (v, cache, cacheExists, [])
  | none =>
    match load_models env cacheExists with
    | (out, c, tr) => (out, (k, out) :: cache, c, tr)

/-- An uploaded file: its `name` and the bytes of `getbuffer()`. -/
structure UploadedFile where
  name : String
  content : List Nat
deriving DecidableEq, Repr

/-- The opaque `VectorStoreIndex` built over one document's chunks. -/
structure DocIndex where
  docs : List Nat
deriving DecidableEq, Repr

/-- Temporary-file area of the host filesystem: the names of the
temporary directories present and the files inside them (directory
name paired with file name). -/
structure TempFS where
  dirs : List Nat
  files : List (Nat × String)
deriving DecidableEq, Repr

/-- A directory name not yet in use, modelling the freshness guarantee
of `tempfile.TemporaryDirectory()` (line 139). -/
def freshDir (ds : List Nat) : Nat :=
  ds.foldr (fun d m => max (d + 1) m) 0

/-- Outcomes of the external calls inside `index_document`:
`SimpleDirectoryReader(...).load_data()` applied to the written bytes,
and `VectorStoreIndex.from_documents` applied to the loaded chunks. -/
structure IdxEnv where
  readData : List Nat → Except String (List Nat)
  buildIndex : List Nat → Except String DocIndex

/-- Body of `index_document` (lines 138-147): create a fresh temporary
directory, write the uploaded bytes into it, read and index the
document; the `with tempfile.TemporaryDirectory()` block removes the
directory and every file inside it on every exit path, including the
exceptional ones and the early `return index`. -/
def index_document (env : IdxEnv) (fs : TempFS) (file : UploadedFile) :
    Except String DocIndex × TempFS :=
  let d := freshDir fs.dirs
  let fsOpen : TempFS := ⟨d :: fs.dirs, (d, file.name) :: fs.files⟩
  let result : Except String DocIndex :=
    match env.readData file.content with
    | .error e => .error e
    | .ok docs =>
      match env.buildIndex docs with
      | .error e => .error e
      | .ok idx => .ok idx
  (result, ⟨fsOpen.dirs.erase d, fsOpen.files.filter (fun p => p.1 != d)⟩)

/-- One chat message, `{"role": ..., "content": ...}`. -/
structure Message where
  role : String
  content : String
deriving DecidableEq, Repr

/-- The greeting placed into `st.session_state.messages` on session
initialization (lines 98-101). -/
def greeting : Message :=
  ⟨"assistant", "Greetings! I am ready to analyze your documents. Please upload a PDF in the sidebar to begin."⟩

/-- Per-session state: the message transcript and the lazily built
document index (`st.session_state.messages` / `st.session_state.vector_index`). -/
structure SessionState where
  messages : List Message
  vector_index : Option DocIndex
deriving Repr

/-- Session state at the start of a session: the greeting alone, no
index yet. -/
def initSession : SessionState :=
  ⟨[greeting], none⟩

/-- Observable events of one chat turn (lines 150-186): appending the
user message, the no-file validation warning, an `st.stop` halt, the
model-loading error report, a call to `index_document`, a query-engine
call, the rendered processing error, and appending the assistant
message. -/
inductive TEv
  | appendUser
  | warnNoFile
  | halt
  | errorModel
  | indexCall
  | queryCall
  | errorShown
  | appendAssistant
deriving DecidableEq, Repr

/-- Outcomes of the external calls of one turn: the indexing oracles and
the query engine (`vector_index.as_query_engine().query(prompt)`). -/
structure TurnEnv where
  idx : IdxEnv
  query : DocIndex → String → Except String String

/-- One chat turn, lines 150-186: append the user message; if no file is
uploaded, warn and stop; if model provisioning reported an error, report
it and stop; otherwise index the document if the session holds no index
yet, then query, appending the assistant message only on query success
and rendering the error otherwise (the try/except of lines 173-186). -/
def run_turn (env : TurnEnv) (uploaded : Option UploadedFile)
    (prov : ProvOut) (fs : TempFS) (s : SessionState) (prompt : String) :
    SessionState × TempFS × List TEv :=
  let s1 : SessionState := ⟨s.messages ++ [⟨"user", prompt⟩], s.vector_index⟩
  match uploaded with
  | none => (s1, fs, [TEv.appendUser, TEv.warnNoFile, TEv.halt])
  | some file =>
    match prov.error with
    | some _ => (s1, fs, [TEv.appendUser, TEv.errorModel, TEv.halt])
    | none =>
      match s1.vector_index with
      | none =>
        match index_document env.idx fs file with
        | (.error _, fs2) =>
          (s1, fs2, [TEv.appendUser, TEv.indexCall, TEv.errorShown])
        | (.ok idx, fs2) =>
          match env.query idx prompt with
          | .error _ =>
            (⟨s1.messages, some idx⟩, fs2,
              [TEv.appendUser, TEv.indexCall, TEv.queryCall, TEv.errorShown])
          | .ok ans =>
            (⟨s1.messages ++ [⟨"assistant", ans⟩], some idx⟩, fs2,
              [TEv.appendUser, TEv.indexCall, TEv.queryCall,
                TEv.appendAssistant])
      | some idx =>
        match env.query idx prompt with
        | .error _ =>
          (s1, fs, [TEv.appendUser, TEv.queryCall, TEv.errorShown])
        | .ok ans =>
          (⟨s1.messages ++ [⟨"assistant", ans⟩], s1.vector_index⟩, fs,
            [TEv.appendUser, TEv.queryCall, TEv.appendAssistant])

/-- A whole session: the turns run in submission order, each threading
the session state and the temporary-file area; `prov` is the memoized
result of `load_models(api_key)`, identical on every turn of the
process (the key `api_key` is fixed at startup, line 68). -/
def run_session (prov : ProvOut)
    (ts : List (TurnEnv × Option UploadedFile × String)) (fs : TempFS)
    (s : SessionState) : SessionState × TempFS × List TEv :=
  match ts with
  | [] => (s, fs, [])
  | t :: rest =>
    let r := run_turn t.1 t.2.1 prov fs s t.2.2
    let r2 := run_session prov rest r.2.1 r.1
    (r2.1, r2.2.1, r.2.2 ++ r2.2.2)

/-- A temporary-file area is well formed when every file lives in one of
the present directories. -/
def TempFS.wf (fs : TempFS) : Prop :=
  ∀ p ∈ fs.files, p.1 ∈ fs.dirs

/-- A turn environment whose external calls all succeed: the reader, the
index builder and the query engine each return a value for every
input. -/
def TurnOk (t : TurnEnv) : Prop :=
  (∀ c, ∃ d, t.idx.readData c = Except.ok d) ∧
  (∀ d, ∃ i, t.idx.buildIndex d = Except.ok i) ∧
  (∀ i p, ∃ a, t.query i p = Except.ok a)

/-- The transcript tail produced by a list of successful turns: for each
submitted prompt, in order, one user message carrying the prompt
followed by one assistant message. -/
def qaShape : List Message → List String → Prop
  | ms, [] => ms = []
  | ms, p :: ps =>
    ∃ a rest, ms = ⟨"user", p⟩ :: ⟨"assistant", a⟩ :: rest ∧ qaShape rest ps

/-- A concrete language-model handle, for witnesses. -/
def llm0 : GroqHandle := ⟨"llama-3.3-70b-versatile", "key0"⟩

/-- Provisioning environment in which every embedding-load attempt
fails while the handle construction and the downloads succeed. -/
def provEnvFailLoad : ProvEnv where
  groq := Except.ok llm0
  download := fun _ => Except.ok ()
  load := fun _ => Except.error "corrupt snapshot"

/-- Provisioning environment in which every external call succeeds. -/
def provEnvOk : ProvEnv where
  groq := Except.ok llm0
  download := fun _ => Except.ok ()
  load := fun _ => Except.ok ⟨"ai_model"⟩

/-- The provisioning output of a fully successful `load_models` call. -/
def provOk0 : ProvOut := ⟨some llm0, some ⟨"ai_model"⟩, none⟩

/-- A concrete uploaded file. -/
def file0 : UploadedFile := ⟨"doc.pdf", [1, 2, 3]⟩

/-- An empty temporary-file area. -/
def fs0 : TempFS := ⟨[], []⟩

/-- A temporary-file area already holding one directory with a file. -/
def fs1 : TempFS := ⟨[5], [(5, "old.pdf")]⟩

/-- Indexing environment in which reading and indexing succeed. -/
def idxEnvOk : IdxEnv where
  readData := fun c => Except.ok c
  buildIndex := fun ds => Except.ok ⟨ds⟩

/-- Indexing environment in which the document reader fails. -/
def idxEnvFail : IdxEnv where
  readData := fun _ => Except.error "parse failure"
  buildIndex := fun ds => Except.ok ⟨ds⟩

/-- Turn environment in which indexing and querying succeed. -/
def turnEnvOk : TurnEnv where
  idx := idxEnvOk
  query := fun _ p => Except.ok ("answer to " ++ p)

/-- Turn environment in which indexing succeeds but every query
raises. -/
def turnEnvQueryFail : TurnEnv where
  idx := idxEnvOk
  query := fun _ _ => Except.error "api down"

/-- Turn environment in which indexing fails. -/
def turnEnvIdxFail : TurnEnv where
  idx := idxEnvFail
  query := fun _ p => Except.ok ("answer to " ++ p)

/-- The trace of `load_embed_core` extends the accumulator it is
given. -/
lemma load_embed_core_trace (env : ProvEnv) (c : Bool) (dIdx : Nat)
    (tr : List Ev) :
    ∃ t, (load_embed_core env c dIdx tr).2.2 = tr ++ t := by
  unfold load_embed_core
  rcases env.load 0 with e | emb
  · rcases env.download dIdx with e2 | u
    · cases c <;> simp
    · rcases env.load 1 with e3 | emb2 <;> cases c <;> simp
  · simp

/-- At most two embedding-load attempts occur in any `load_models`
call: the initial attempt and the single self-healing retry. -/
lemma load_models_load_count (env : ProvEnv) (c : Bool) :
    ((load_models env c).2.2.count Ev.evLoad) ≤ 2 := by
  unfold load_models load_embed load_embed_core
  rcases env.groq with e | llm
  · simp
  · rcases h0 : env.load 0 with e0 | emb0 <;>
      rcases h1 : env.load 1 with e1 | emb1 <;>
      rcases hd0 : env.download 0 with ed0 | ud0 <;>
      rcases hd1 : env.download 1 with ed1 | ud1 <;>
      cases c <;>
      simp [h0, h1, hd0, hd1, List.count_cons, List.count_append]

/-- C8: in `load_models`, the error output is populated exactly when
both handles are null — either all of `(llm, embed, error)` is
`(None, None, str(e))`, or both handles are present and the error is
`None`; no partial handles are ever returned. -/
theorem c8_atomic_failure (env : ProvEnv) (c : Bool) :
    ((load_models env c).1.llm = none ∧ (load_models env c).1.embed = none ∧
        (load_models env c).1.error ≠ none) ∨
      (∃ l m, (load_models env c).1.llm = some l ∧
        (load_models env c).1.embed = some m ∧
        (load_models env c).1.error = none) := by
  unfold load_models
  rcases env.groq with e | llm
  · simp
  · rcases h : load_embed env c with ⟨r, c2, tr⟩
    rcases r with e | emb <;> simp

/-- C1: the self-healing retry of `load_models`.  When the Groq handle
constructs and every download succeeds but the first embedding load
fails: (a) the events are — a download first exactly when the snapshot
directory was absent — a load attempt, the deletion of the cache
directory, a re-download, and one retried load; (b) if the retry also
fails, the call returns `(None, None, str(e))` with the retry's cause
and no further load is attempted (at most two load attempts in any
call); (c) if the retry succeeds, the handles are returned; (d) when
the directory is absent the first event of any run that gets past the
handle construction is the download. -/
theorem c1_self_healing (env : ProvEnv) (c : Bool) (llm : GroqHandle)
    (hg : env.groq = Except.ok llm) (e0 : String)
    (h0 : env.load 0 = Except.error e0)
    (hd : ∀ i, env.download i = Except.ok ()) :
    (load_models env c).2.2 =
      (if c then [] else [Ev.evDownload]) ++
        [Ev.evLoad, Ev.evRmtree, Ev.evDownload, Ev.evLoad] ∧
    (∀ e1, env.load 1 = Except.error e1 →
      (load_models env c).1 = ⟨none, none, some e1⟩) ∧
    (∀ emb, env.load 1 = Except.ok emb →
      (load_models env c).1 = ⟨some llm, some emb, none⟩) ∧
    (∀ env2 : ProvEnv, ∀ c2 : Bool,
      ((load_models env2 c2).2.2.count Ev.evLoad) ≤ 2) ∧
    (∀ env2 : ProvEnv, ∀ llm2 : GroqHandle, env2.groq = Except.ok llm2 →
      (load_models env2 false).2.2.head? = some Ev.evDownload) := by
  refine ⟨?_, ?_, ?_, fun env2 c2 => load_models_load_count env2 c2, ?_⟩
  · unfold load_models load_embed load_embed_core
    rcases h1 : env.load 1 with e1 | emb1 <;>
      cases c <;> simp [hg, h0, h1, hd 0, hd 1]
  · intro e1 h1
    unfold load_models load_embed load_embed_core
    cases c <;> simp [hg, h0, h1, hd 0, hd 1]
  · intro emb h1
    unfold load_models load_embed load_embed_core
    cases c <;> simp [hg, h0, h1, hd 0, hd 1]
  · intro env2 llm2 hg2
    unfold load_models load_embed
    rcases hd2 : env2.download 0 with ed | ud
    · simp [hg2, hd2]
    · rcases load_embed_core_trace env2 true 1 [Ev.evDownload] with ⟨t, ht⟩
      rcases hc : load_embed_core env2 true 1 [Ev.evDownload] with ⟨r, c3, tr⟩
      rw [hc] at ht
      rcases r with e | emb <;> simp [hg2, hd2, hc] <;>
        simp at ht <;> simp [ht]

/-- Witness for C1 at a concrete environment: Groq succeeds, downloads
succeed, every load fails. -/
theorem c1_self_healing_witness :
    (load_models provEnvFailLoad true).2.2 =
        [Ev.evLoad, Ev.evRmtree, Ev.evDownload, Ev.evLoad] ∧
      (load_models provEnvFailLoad true).1 =
        ⟨none, none, some "corrupt snapshot"⟩ := by
  have h := c1_self_healing provEnvFailLoad true llm0 rfl
    "corrupt snapshot" rfl (fun i => rfl)
  exact ⟨by simpa using h.1, h.2.1 "corrupt snapshot" rfl⟩

/-- C2: `load_models` under `st.cache_resource` is idempotent and
memoized.  After a first call on a key not yet cached, a second call
with the same key — whatever the environment of that second call and
whatever the filesystem then looks like — returns exactly the stored
tuple, leaves the cache and the filesystem untouched, and performs no
download, deletion, or load events.  The cache is a process-wide table
threaded across calls, independent of any session state. -/
theorem c2_memoized (env1 env2 : ProvEnv) (cache : List (String × ProvOut))
    (c1b c2b : Bool) (k : String) (hmiss : cacheLookup cache k = none) :
    (load_models_cached env2
        (load_models_cached env1 cache c1b k).2.1 c2b k).1 =
      (load_models_cached env1 cache c1b k).1 ∧
    (load_models_cached env2
        (load_models_cached env1 cache c1b k).2.1 c2b k).2.1 =
      (load_models_cached env1 cache c1b k).2.1 ∧
    (load_models_cached env2
        (load_models_cached env1 cache c1b k).2.1 c2b k).2.2.1 = c2b ∧
    (load_models_cached env2
        (load_models_cached env1 cache c1b k).2.1 c2b k).2.2.2 = [] := by
  unfold load_models_cached
  rw [hmiss]
  rcases h : load_models env1 c1b with ⟨out, c, tr⟩
  simp [cacheLookup]

/-- Witness for C2: two calls with the same key on an initially empty
cache; the second returns the stored handles with no events. -/
theorem c2_memoized_witness :
    (load_models_cached provEnvOk
        (load_models_cached provEnvOk [] true "key0").2.1 true "key0").1 =
      (load_models_cached provEnvOk [] true "key0").1 ∧
    (load_models_cached provEnvOk
        (load_models_cached provEnvOk [] true "key0").2.1
        true "key0").2.2.2 = [] := by
  have h := c2_memoized provEnvOk provEnvOk [] true true "key0" rfl
  exact ⟨h.1, h.2.2.2⟩

/-- C9: the `st.cache_resource` cache memoizes failures too.  If the
first call for a key produced the error tuple `(None, None, str(e))`,
every later call with the same key returns that same cached error tuple
and performs no download, deletion, or load events — a failed
provisioning is never re-attempted in the same process. -/
theorem c9_failure_memoized (env1 env2 : ProvEnv)
    (cache : List (String × ProvOut)) (c1b c2b : Bool) (k e : String)
    (hmiss : cacheLookup cache k = none)
    (hfail : (load_models env1 c1b).1 = ⟨none, none, some e⟩) :
    (load_models_cached env1 cache c1b k).1 = ⟨none, none, some e⟩ ∧
    (load_models_cached env2
        (load_models_cached env1 cache c1b k).2.1 c2b k).1 =
      ⟨none, none, some e⟩ ∧
    (load_models_cached env2
        (load_models_cached env1 cache c1b k).2.1 c2b k).2.2.2 = [] := by
  unfold load_models_cached
  rw [hmiss]
  rcases h : load_models env1 c1b with ⟨out, c, tr⟩
  rw [h] at hfail
  simp at hfail
  subst hfail
  simp [cacheLookup]

/-- Witness for C9: the failing environment of C1, called twice on the
same key; the second call returns the cached error without events. -/
theorem c9_failure_memoized_witness :
    (load_models_cached provEnvFailLoad
        (load_models_cached provEnvFailLoad [] true "key0").2.1
        true "key0").1 = ⟨none, none, some "corrupt snapshot"⟩ ∧
    (load_models_cached provEnvFailLoad
        (load_models_cached provEnvFailLoad [] true "key0").2.1
        true "key0").2.2.2 = [] := by
  have h := c9_failure_memoized provEnvFailLoad provEnvFailLoad [] true true
    "key0" "corrupt snapshot" rfl rfl
  exact ⟨h.2.1, h.2.2⟩

/-- Every present directory name is strictly below `freshDir`. -/
lemma lt_freshDir (ds : List Nat) : ∀ d ∈ ds, d < freshDir ds := by
  induction ds with
  | nil => intro d hd; cases hd
  | cons a rest ih =>
    intro d hd
    rcases List.mem_cons.mp hd with h | h
    · subst h
      exact lt_of_lt_of_le (Nat.lt_succ_self d) (Nat.le_max_left _ _)
    · exact lt_of_lt_of_le (ih d h) (Nat.le_max_right _ _)

/-- The directory chosen by `freshDir` is not already present. -/
lemma freshDir_not_mem (ds : List Nat) : freshDir ds ∉ ds := by
  intro h
  exact absurd (lt_freshDir ds _ h) (lt_irrefl _)

/-- C4: `index_document` writes into a fresh, uniquely named temporary
directory, and on every exit path — reader failure, indexing failure,
or the successful early return — the directory and every file created
inside it are removed: the temporary-file area after the call equals
the area before it. -/
theorem c4_temp_cleanup (env : IdxEnv) (fs : TempFS) (file : UploadedFile)
    (hwf : fs.wf) :
    (index_document env fs file).2 = fs ∧ freshDir fs.dirs ∉ fs.dirs := by
  refine ⟨?_, freshDir_not_mem fs.dirs⟩
  unfold index_document
  rcases fs with ⟨dirs, files⟩
  simp only [List.erase_cons_head]
  have hfilter : ((freshDir dirs, file.name) :: files).filter
      (fun p => p.1 != freshDir dirs) = files := by
    rw [List.filter_cons]
    simp only [bne_self_eq_false, if_neg]
    exact List.filter_eq_self.mpr (fun p hp => by
      have h1 : p.1 ∈ dirs := hwf p hp
      have h2 : p.1 ≠ freshDir dirs := by
        intro heq
        exact freshDir_not_mem dirs (heq ▸ h1)
      simpa using h2)
  simp [hfilter]

/-- Witness for C4: a failing indexing environment over a non-empty
well-formed area; the area is unchanged and the chosen name is new. -/
theorem c4_temp_cleanup_witness :
    (index_document idxEnvFail fs1 file0).2 = fs1 ∧
      freshDir fs1.dirs ∉ fs1.dirs := by
  exact c4_temp_cleanup idxEnvFail fs1 file0 (by
    intro p hp
    simp only [fs1] at hp ⊢
    simp at hp
    simp [hp])

/-- Every chat turn only extends the transcript: the resulting message
list is the previous one followed by some suffix. -/
lemma run_turn_messages_ext (env : TurnEnv) (u : Option UploadedFile)
    (prov : ProvOut) (fs : TempFS) (s : SessionState) (p : String) :
    ∃ t, (run_turn env u prov fs s p).1.messages = s.messages ++ t := by
  unfold run_turn
  rcases u with _ | f
  · exact ⟨[⟨"user", p⟩], rfl⟩
  · rcases hpe : prov.error with _ | e
    · rcases hvi : s.vector_index with _ | idx
      · rcases hr : index_document env.idx fs f with ⟨r, fs2⟩
        rcases r with e2 | idx2
        · exact ⟨[⟨"user", p⟩], by simp [hpe, hvi, hr]⟩
        · rcases hq : env.query idx2 p with e3 | ans
          · exact ⟨[⟨"user", p⟩], by simp [hpe, hvi, hr, hq]⟩
          · exact ⟨[⟨"user", p⟩, ⟨"assistant", ans⟩],
              by simp [hpe, hvi, hr, hq]⟩
      · rcases hq : env.query idx p with e3 | ans
        · exact ⟨[⟨"user", p⟩], by simp [hpe, hvi, hq]⟩
        · exact ⟨[⟨"user", p⟩, ⟨"assistant", ans⟩], by simp [hpe, hvi, hq]⟩
    · exact ⟨[⟨"user", p⟩], by simp [hpe]⟩

/-- A whole session only extends the transcript it starts from. -/
lemma run_session_messages_ext (prov : ProvOut) :
    ∀ ts : List (TurnEnv × Option UploadedFile × String), ∀ fs s,
      ∃ t, (run_session prov ts fs s).1.messages = s.messages ++ t := by
  intro ts
  induction ts with
  | nil => intro fs s; exact ⟨[], by simp [run_session]⟩
  | cons t rest ih =>
    intro fs s
    rcases run_turn_messages_ext t.1 t.2.1 prov fs s t.2.2 with ⟨t1, h1⟩
    rcases ih (run_turn t.1 t.2.1 prov fs s t.2.2).2.1
        (run_turn t.1 t.2.1 prov fs s t.2.2).1 with ⟨t2, h2⟩
    refine ⟨t1 ++ t2, ?_⟩
    unfold run_session
    dsimp only
    rw [h2, h1, List.append_assoc]

/-- A turn run on a session that already holds a document index keeps
that index and never calls `index_document`. -/
lemma run_turn_keeps_index (env : TurnEnv) (u : Option UploadedFile)
    (prov : ProvOut) (fs : TempFS) (s : SessionState) (p : String)
    (idx : DocIndex) (hvi : s.vector_index = some idx) :
    (run_turn env u prov fs s p).1.vector_index = some idx ∧
      TEv.indexCall ∉ (run_turn env u prov fs s p).2.2 := by
  unfold run_turn
  rcases u with _ | f
  · simpa using hvi
  · rcases hpe : prov.error with _ | e
    · rcases hq : env.query idx p with e2 | ans <;> simp [hpe, hvi, hq]
    · simp [hpe, hvi]

/-- A session started with a document index present keeps it and never
calls `index_document` on any turn. -/
lemma run_session_keeps_index (prov : ProvOut) :
    ∀ ts : List (TurnEnv × Option UploadedFile × String), ∀ fs s idx,
      s.vector_index = some idx →
        (run_session prov ts fs s).1.vector_index = some idx ∧
          TEv.indexCall ∉ (run_session prov ts fs s).2.2 := by
  intro ts
  induction ts with
  | nil => intro fs s idx h; exact ⟨by simpa using h, by simp [run_session]⟩
  | cons t rest ih =>
    intro fs s idx h
    have h1 := run_turn_keeps_index t.1 t.2.1 prov fs s t.2.2 idx h
    have h2 := ih (run_turn t.1 t.2.1 prov fs s t.2.2).2.1
      (run_turn t.1 t.2.1 prov fs s t.2.2).1 idx h1.1
    refine ⟨h2.1, ?_⟩
    unfold run_session
    dsimp only
    rw [List.mem_append]
    rintro (hc | hc)
    · exact h1.2 hc
    · exact h2.2 hc

/-- A turn that reaches indexing on a session without an index, with a
succeeding reader and index builder, stores the built index and calls
`index_document` exactly once. -/
lemma run_turn_first_index (env : TurnEnv) (f : UploadedFile)
    (prov : ProvOut) (fs : TempFS) (s : SessionState) (p : String)
    (ds : List Nat) (idx : DocIndex)
    (hpe : prov.error = none) (hvi : s.vector_index = none)
    (hread : env.idx.readData f.content = Except.ok ds)
    (hbuild : env.idx.buildIndex ds = Except.ok idx) :
    (run_turn env (some f) prov fs s p).1.vector_index = some idx ∧
      (run_turn env (some f) prov fs s p).2.2.count TEv.indexCall = 1 := by
  unfold run_turn
  rcases hq : env.query idx p with e2 | ans <;>
    simp [hpe, hvi, index_document, hread, hbuild, hq, List.count_cons]

/-- A successful turn with a file uploaded and models provisioned
appends exactly the user message and one assistant message, and leaves
the session holding an index. -/
lemma run_turn_success (env : TurnEnv) (f : UploadedFile) (prov : ProvOut)
    (fs : TempFS) (s : SessionState) (p : String)
    (hprov : prov.error = none) (hok : TurnOk env) :
    ∃ a, (run_turn env (some f) prov fs s p).1.messages =
        s.messages ++ [⟨"user", p⟩, ⟨"assistant", a⟩] ∧
      ∃ i, (run_turn env (some f) prov fs s p).1.vector_index = some i := by
  rcases hvi : s.vector_index with _ | idx
  · rcases hok.1 f.content with ⟨ds, hread⟩
    rcases hok.2.1 ds with ⟨idx, hbuild⟩
    rcases hok.2.2 idx p with ⟨a, hq⟩
    refine ⟨a, ?_, idx, ?_⟩ <;> unfold run_turn <;>
      simp [hprov, hvi, index_document, hread, hbuild, hq]
  · rcases hok.2.2 idx p with ⟨a, hq⟩
    refine ⟨a, ?_, idx, ?_⟩ <;> unfold run_turn <;> simp [hprov, hvi, hq]

/-- A session of successful turns, all against the same uploaded file,
extends the transcript by exactly one user/assistant pair per prompt,
in submission order. -/
lemma run_session_success (prov : ProvOut) (f : UploadedFile)
    (hprov : prov.error = none) :
    ∀ ts : List (TurnEnv × String), (∀ t ∈ ts, TurnOk t.1) →
      ∀ fs s, ∃ tail,
        (run_session prov (ts.map (fun t => (t.1, some f, t.2)))
            fs s).1.messages = s.messages ++ tail ∧
          qaShape tail (ts.map Prod.snd) := by
  intro ts
  induction ts with
  | nil =>
    intro _ fs s
    exact ⟨[], by simp [run_session], by simp [qaShape]⟩
  | cons t rest ih =>
    intro hok fs s
    rcases run_turn_success t.1 f prov fs s t.2 hprov (hok t (by simp))
      with ⟨a, hmsg, i, hvi⟩
    rcases ih (fun t2 ht2 => hok t2 (by simp [ht2]))
        (run_turn t.1 (some f) prov fs s t.2).2.1
        (run_turn t.1 (some f) prov fs s t.2).1 with ⟨tail2, hm2, hq2⟩
    refine ⟨⟨"user", t.2⟩ :: ⟨"assistant", a⟩ :: tail2, ?_, ?_⟩
    · simp only [List.map_cons]
      unfold run_session
      dsimp only
      rw [hm2, hmsg]
      simp
    · exact ⟨a, tail2, rfl, by simpa using hq2⟩

/-- A transcript tail of shape `qaShape` has twice as many messages as
prompts. -/
lemma qaShape_length : ∀ ps : List String, ∀ ms : List Message,
    qaShape ms ps → ms.length = 2 * ps.length := by
  intro ps
  induction ps with
  | nil => intro ms h; simp [qaShape] at h; simp [h]
  | cons p ps ih =>
    intro ms h
    rcases h with ⟨a, rest, hms, hrest⟩
    subst hms
    have := ih rest hrest
    simp [this]
    omega

/-- C5: a question submitted with no file uploaded is first appended to
the history, then the turn is rejected with the validation warning and
halted; neither `index_document` nor the query engine runs on that
turn. -/
theorem c5_no_file_validation (env : TurnEnv) (prov : ProvOut)
    (fs : TempFS) (s : SessionState) (p : String) :
    run_turn env none prov fs s p =
        (⟨s.messages ++ [⟨"user", p⟩], s.vector_index⟩, fs,
          [TEv.appendUser, TEv.warnNoFile, TEv.halt]) ∧
      TEv.indexCall ∉ (run_turn env none prov fs s p).2.2 ∧
      TEv.queryCall ∉ (run_turn env none prov fs s p).2.2 := by
  refine ⟨rfl, ?_, ?_⟩ <;> simp [run_turn]

/-- C10: the transcript is append-only and always starts with the fixed
assistant greeting: every turn leaves the existing messages as a prefix,
and any session run from the initial state has a non-empty transcript
whose first entry is the greeting. -/
theorem c10_greeting_invariant :
    (∀ env u prov fs s p,
      s.messages <+: (run_turn env u prov fs s p).1.messages) ∧
    (∀ prov ts fs,
      (run_session prov ts fs initSession).1.messages.head? =
          some greeting ∧
        (run_session prov ts fs initSession).1.messages ≠ []) := by
  constructor
  · intro env u prov fs s p
    rcases run_turn_messages_ext env u prov fs s p with ⟨t, ht⟩
    exact ⟨t, ht.symm⟩
  · intro prov ts fs
    rcases run_session_messages_ext prov ts fs initSession with ⟨t, ht⟩
    rw [ht]
    constructor <;> simp [initSession]

/-- C6: turn isolation on query failure.  If a turn reaches the query
and the query engine raises, the user's question stays in the history,
no assistant message is appended for that turn, the built index is
retained, and a subsequent different question whose query succeeds
appends its user/assistant pair normally. -/
theorem c6_turn_isolation (env env2 : TurnEnv) (f : UploadedFile)
    (prov : ProvOut) (fs : TempFS) (s : SessionState) (p p2 : String)
    (ds : List Nat) (idx : DocIndex) (e a : String)
    (hprov : prov.error = none) (hnone : s.vector_index = none)
    (hread : env.idx.readData f.content = Except.ok ds)
    (hbuild : env.idx.buildIndex ds = Except.ok idx)
    (hq : env.query idx p = Except.error e)
    (hq2 : env2.query idx p2 = Except.ok a) :
    (run_turn env (some f) prov fs s p).1.messages =
        s.messages ++ [⟨"user", p⟩] ∧
      TEv.appendAssistant ∉ (run_turn env (some f) prov fs s p).2.2 ∧
      (run_turn env (some f) prov fs s p).1.vector_index = some idx ∧
      (run_turn env2 (some f) prov
          (run_turn env (some f) prov fs s p).2.1
          (run_turn env (some f) prov fs s p).1 p2).1.messages =
        s.messages ++ [⟨"user", p⟩, ⟨"user", p2⟩, ⟨"assistant", a⟩] ∧
      TEv.appendAssistant ∈ (run_turn env2 (some f) prov
          (run_turn env (some f) prov fs s p).2.1
          (run_turn env (some f) prov fs s p).1 p2).2.2 := by
  have hmsg1 : (run_turn env (some f) prov fs s p).1.messages =
      s.messages ++ [⟨"user", p⟩] := by
    unfold run_turn
    simp [hprov, hnone, index_document, hread, hbuild, hq]
  have hvi1 : (run_turn env (some f) prov fs s p).1.vector_index =
      some idx := by
    unfold run_turn
    simp [hprov, hnone, index_document, hread, hbuild, hq]
  have htr1 : (run_turn env (some f) prov fs s p).2.2 =
      [TEv.appendUser, TEv.indexCall, TEv.queryCall, TEv.errorShown] := by
    unfold run_turn
    simp [hprov, hnone, index_document, hread, hbuild, hq]
  refine ⟨hmsg1, by rw [htr1]; simp, hvi1, ?_, ?_⟩
  · conv_lhs => rw [run_turn]
    simp [hprov, hvi1, hq2, hmsg1]
  · conv_lhs => rw [run_turn]
    simp [hprov, hvi1, hq2]

/-- Witness for C6 at a concrete session: first question fails at the
query engine, second succeeds. -/
theorem c6_turn_isolation_witness :
    (run_turn turnEnvQueryFail (some file0) provOk0 fs0 initSession
        "q1").1.messages = initSession.messages ++ [⟨"user", "q1"⟩] ∧
      (run_turn turnEnvOk (some file0) provOk0
          (run_turn turnEnvQueryFail (some file0) provOk0 fs0 initSession
            "q1").2.1
          (run_turn turnEnvQueryFail (some file0) provOk0 fs0 initSession
            "q1").1 "q2").1.messages =
        initSession.messages ++
          [⟨"user", "q1"⟩, ⟨"user", "q2"⟩, ⟨"assistant", "answer to q2"⟩] := by
  have h := c6_turn_isolation turnEnvQueryFail turnEnvOk file0 provOk0 fs0
    initSession "q1" "q2" file0.content ⟨file0.content⟩ "api down"
    "answer to q2" rfl rfl rfl rfl rfl rfl
  exact ⟨h.1, h.2.2.2.1⟩

/-- Counterexample to C3: a session with two questions against the same
uploaded file in which `index_document` runs twice.  When the first
turn's indexing raises, no index is stored, so the second question
invokes `index_document` again — the claim's "exactly once, on the
first question" fails. -/
theorem c3_counterexample :
    ((run_session provOk0
        [(turnEnvIdxFail, some file0, "q1"), (turnEnvIdxFail, some file0, "q2")]
        fs0 initSession).2.2.count TEv.indexCall) = 2 ∧
      ¬ ((run_session provOk0
        [(turnEnvIdxFail, some file0, "q1"), (turnEnvIdxFail, some file0, "q2")]
        fs0 initSession).2.2.count TEv.indexCall ≤ 1) := by
  constructor <;> decide

/-- C3 amended: indexing is invoked at most once per session after a
success — on the first question whose indexing succeeds the built index
is stored in session state, and from any state holding an index no later
turn ever invokes `index_document` again; in particular a session whose
first turn reaches indexing and succeeds performs exactly one
`index_document` call over all its turns.  (An indexing attempt that
raises stores nothing and is retried on the next question.) -/
theorem c3_amended_index_once (prov : ProvOut) (env : TurnEnv)
    (f : UploadedFile) (fs : TempFS) (p : String) (ds : List Nat)
    (idx : DocIndex)
    (rest : List (TurnEnv × Option UploadedFile × String))
    (hprov : prov.error = none)
    (hread : env.idx.readData f.content = Except.ok ds)
    (hbuild : env.idx.buildIndex ds = Except.ok idx) :
    ((run_session prov ((env, some f, p) :: rest) fs
        initSession).2.2.count TEv.indexCall) = 1 ∧
      (∀ s : SessionState, ∀ i : DocIndex, s.vector_index = some i →
        ∀ ts fs2,
          ((run_session prov ts fs2 s).2.2.count TEv.indexCall) = 0 ∧
            (run_session prov ts fs2 s).1.vector_index = some i) := by
  constructor
  · have h1 := run_turn_first_index env f prov fs initSession p ds idx
      hprov rfl hread hbuild
    have h2 := run_session_keeps_index prov rest
      (run_turn env (some f) prov fs initSession p).2.1
      (run_turn env (some f) prov fs initSession p).1 idx h1.1
    unfold run_session
    dsimp only
    rw [List.count_append, h1.2, List.count_eq_zero.mpr h2.2]
  · intro s i hvi ts fs2
    have h := run_session_keeps_index prov ts fs2 s i hvi
    exact ⟨List.count_eq_zero.mpr h.2, h.1⟩

/-- Witness for the amended C3: first question fails only at the query
engine, second succeeds; one `index_document` call in total. -/
theorem c3_amended_index_once_witness :
    ((run_session provOk0
        [(turnEnvQueryFail, some file0, "q1"), (turnEnvOk, some file0, "q2")]
        fs0 initSession).2.2.count TEv.indexCall) = 1 := by
  have h := c3_amended_index_once provOk0 turnEnvQueryFail file0 fs0 "q1"
    file0.content ⟨file0.content⟩ [(turnEnvOk, some file0, "q2")]
    rfl rfl rfl
  exact h.1

/-- Counterexample to C7: after one successful question/answer turn the
transcript holds three entries — the initial assistant greeting and the
user/assistant pair — not the claimed `2 * 1` entries, and it begins
with an assistant message rather than a user message. -/
theorem c7_counterexample :
    (run_session provOk0 [(turnEnvOk, some file0, "q1")] fs0
        initSession).1.messages =
        [greeting, ⟨"user", "q1"⟩, ⟨"assistant", "answer to q1"⟩] ∧
      (run_session provOk0 [(turnEnvOk, some file0, "q1")] fs0
          initSession).1.messages.length ≠ 2 * 1 := by
  constructor <;> decide

/-- C7 amended: after N successful question/answer turns the transcript
contains exactly `2 * N + 1` entries — the initial assistant greeting
followed by the N user/assistant pairs, alternating user then
assistant, in submission order. -/
theorem c7_amended_transcript (prov : ProvOut) (f : UploadedFile)
    (ts : List (TurnEnv × String)) (fs : TempFS)
    (hprov : prov.error = none) (hok : ∀ t ∈ ts, TurnOk t.1) :
    ∃ tail,
      (run_session prov (ts.map (fun t => (t.1, some f, t.2))) fs
          initSession).1.messages = greeting :: tail ∧
        qaShape tail (ts.map Prod.snd) ∧
        (run_session prov (ts.map (fun t => (t.1, some f, t.2))) fs
            initSession).1.messages.length = 2 * ts.length + 1 := by
  rcases run_session_success prov f hprov ts hok fs initSession
    with ⟨tail, hm, hq⟩
  refine ⟨tail, ?_, hq, ?_⟩
  · simpa [initSession] using hm
  · rw [hm]
    have hlen := qaShape_length (ts.map Prod.snd) tail hq
    simp [initSession, hlen]

/-- Witness for the amended C7: two successful turns yield the greeting
followed by two user/assistant pairs, five entries in all. -/
theorem c7_amended_transcript_witness :
    ∃ tail,
      (run_session provOk0
          (([(turnEnvOk, "q1"), (turnEnvOk, "q2")] :
              List (TurnEnv × String)).map
            (fun t => (t.1, some file0, t.2))) fs0
          initSession).1.messages = greeting :: tail ∧
        qaShape tail
          (([(turnEnvOk, "q1"), (turnEnvOk, "q2")] :
              List (TurnEnv × String)).map Prod.snd) ∧
        (run_session provOk0
            (([(turnEnvOk, "q1"), (turnEnvOk, "q2")] :
                List (TurnEnv × String)).map
              (fun t => (t.1, some file0, t.2))) fs0
            initSession).1.messages.length =
          2 * ([(turnEnvOk, "q1"), (turnEnvOk, "q2")] :
              List (TurnEnv × String)).length + 1 := by
  refine c7_amended_transcript provOk0 file0
    [(turnEnvOk, "q1"), (turnEnvOk, "q2")] fs0 rfl ?_
  intro t ht
  have hok : TurnOk turnEnvOk :=
    ⟨fun c => ⟨c, rfl⟩, fun d => ⟨⟨d⟩, rfl⟩, fun i p => ⟨"answer to " ++ p, rfl⟩⟩
  rcases List.mem_cons.mp ht with h | h
  · rw [h]; exact hok
  · rcases List.mem_cons.mp h with h2 | h2
    · rw [h2]; exact hok
    · cases h2

end InsightEngine
